import Mathlib

/-!
Shallow embedding of the machbase/neo-spi package (`package spi`).

The concrete code of the repository is the Column model
(`Columns.Names`, `Columns.NamesWithTimeLocation`, `Columns.Types`,
`Columns.MakeBuffer` in database.go) and the two error sentinels
(`ErrUserCancel`, `ErrNotImplemented`).  The `Rows`, `Appender` and `Conn`
types are interfaces only; where a claim is about their behavioural
contract, the missing implementation is modelled from the spec and the
modelling definitions say so in their doc comments.
-/

namespace Spi

/-- Go `time.Location`: only its name is observable through `String()`. -/
structure Location where
  name : String
deriving DecidableEq, Repr

/-- Go `(*time.Location).String()` returns the location's name. -/
def Location.str (l : Location) : String := l.name

/-- `Column` from database.go: `{Name, Type, Size, Length} (Type is a Lean keyword, so the field is spelled Typ)`. -/
structure Column where
  Name : String
  Typ : String
  Size : Int
  Length : Int
deriving DecidableEq, Repr

/-- `Columns` from database.go: an ordered sequence of Column. -/
abbrev Columns := List Column

/-- The storage kind of a buffer cell allocated by `MakeBuffer`:
one constructor per Go `new(T)` expression in the switch. -/
inductive CellKind where
  | i16        -- new(int16): 16-bit signed integer
  | i32        -- new(int32): 32-bit signed integer
  | i64        -- new(int64): 64-bit signed integer
  | timeTime   -- new(time.Time): timestamp
  | f32        -- new(float32): 32-bit float
  | f64        -- new(float64): 64-bit float
  | netIP      -- new(net.IP): IP address value
  | text       -- new(string): text
  | bytes      -- new([]byte): byte sequence
  | boolean    -- new(bool): boolean
  | byteU8     -- new(byte): 8-bit unsigned integer
deriving DecidableEq, Repr

/-- The body of the `switch cols[i].Typ` in `Columns.MakeBuffer`:
a sequential comparison against the twelve literal tags; any other
tag leaves the slot at its zero value `nil`, modelled as `none`. -/
def bufferCellOf (t : String) : Option CellKind :=
  if t = "int16" then some .i16
  else if t = "int32" then some .i32
  else if t = "int64" then some .i64
  else if t = "datetime" then some .timeTime
  else if t = "float" then some .f32
  else if t = "double" then some .f64
  else if t = "ipv4" then some .netIP
  else if t = "ipv6" then some .netIP
  else if t = "string" then some .text
  else if t = "binary" then some .bytes
  else if t = "bool" then some .boolean
  else if t = "int8" then some .byteU8
  else none

/-- `Columns.Names` from database.go: the list of the columns' names. -/
def Columns.Names (cols : Columns) : List String :=
  cols.map (fun c => c.Name)

/-- `Columns.NamesWithTimeLocation` from database.go: datetime columns
render as `name(zone)` via `fmt.Sprintf("%s(%s)", name, tz.String())`,
all others as the bare name. -/
def Columns.NamesWithTimeLocation (cols : Columns) (tz : Location) : List String :=
  cols.map (fun c =>
    if c.Typ = "datetime" then c.Name ++ "(" ++ tz.str ++ ")" else c.Name)

/-- `Columns.Types` from database.go: the list of the columns' type tags. -/
def Columns.Types (cols : Columns) : List String :=
  cols.map (fun c => c.Typ)

/-- `Columns.MakeBuffer` from database.go: `rec := make([]any, len(cols))`
followed by the per-index switch on `cols[i].Typ`. -/
def Columns.MakeBuffer (cols : Columns) : List (Option CellKind) :=
  cols.map (fun c => bufferCellOf c.Typ)

/-- The twelve `ColumnBufferType*` constants of database.go. -/
def supportedTags : List String :=
  ["int16", "int32", "int64", "datetime", "float", "double",
   "ipv4", "ipv6", "string", "binary", "bool", "int8"]

theorem bufferCellOf_eq_none_of_not_mem {t : String}
    (h : t ∉ supportedTags) : bufferCellOf t = none := by
  simp only [supportedTags, List.mem_cons, List.not_mem_nil, or_false, not_or] at h
  obtain ⟨h1, h2, h3, h4, h5, h6, h7, h8, h9, h10, h11, h12⟩ := h
  simp [bufferCellOf, h1, h2, h3, h4, h5, h6, h7, h8, h9, h10, h11, h12]

theorem bufferCellOf_isSome_of_mem {t : String}
    (h : t ∈ supportedTags) : ∃ k, bufferCellOf t = some k := by
  simp only [supportedTags, List.mem_cons, List.not_mem_nil, or_false] at h
  rcases h with h | h | h | h | h | h | h | h | h | h | h | h <;>
    subst h <;> exact ⟨_, rfl⟩

theorem MakeBuffer_getElem? (cols : Columns) (i : Nat) :
    cols.MakeBuffer[i]? = cols[i]?.map (fun c => bufferCellOf c.Typ) := by
  simp [Columns.MakeBuffer, List.getElem?_map]

/-- Go `errors.New` allocates a fresh error value; Go `==` on error
interface values compares the allocation identity, never the message
text.  An allocated error is its allocation identity plus its message. -/
structure GoErr where
  allocId : Nat
  msg : String
deriving DecidableEq, Repr

/-- `ErrUserCancel = errors.New("user cancel")`: the first allocation. -/
def ErrUserCancel : GoErr := ⟨0, "user cancel"⟩

/-- `ErrNotImplemented = errors.New("not implemented")`: the second
allocation. -/
def ErrNotImplemented : GoErr := ⟨1, "not implemented"⟩

/-- Go `==` on two `errors.New` values: identity comparison, the message
text is not inspected. -/
def goErrEq (a b : GoErr) : Bool := a.allocId == b.allocId

/-- A Go `any` value as passed to Scan targets and Append calls. -/
inductive GoValue where
  | intv (n : Int)
  | strv (s : String)
  | timev (t : Int)
deriving DecidableEq, Repr

/-- Cursor position states of the Rows state machine. -/
inductive CursorState where
  | unstarted
  | positioned
  | exhausted
deriving DecidableEq, Repr

/-- Modelled from the spec: src declares only the `Rows` interface, with
no implementation; this is the cursor over one result set.  `rows` holds
the remaining unfetched records, `current` the record a successful
`Next` positioned on, `closed` whether `Close` has been called. -/
structure Cursor where
  rows : List (List GoValue)
  state : CursorState
  current : List GoValue
  closed : Bool
deriving DecidableEq, Repr

/-- Modelled from the spec: a cursor freshly returned by `Query` is in
the Unstarted state, positioned on no record. -/
def rowsOpen (data : List (List GoValue)) : Cursor :=
  ⟨data, .unstarted, [], false⟩

/-- Modelled from the spec: `Next` returns true and positions on the
next record while one remains, and returns false moving the cursor to
Exhausted otherwise. -/
def rowsNext (c : Cursor) : Bool × Cursor :=
  match c.rows with
  | [] => (false, { c with state := .exhausted })
  | r :: rest => (true, { c with rows := rest, state := .positioned, current := r })

/-- The usage error a Scan outside the Positioned state fails with. -/
def errScanUsage : GoErr := ⟨2, "no row to scan, call Next first"⟩

/-- Modelled from the spec: `Scan` retrieves the current record and is
only meaningful in the Positioned state; elsewhere it fails with a
usage error. -/
def rowsScan (c : Cursor) : Except GoErr (List GoValue) :=
  if c.state = .positioned then .ok c.current else .error errScanUsage

/-- Modelled from the spec: `Close` releases the cursor's resources; it
is valid from any state, any number of times, and reports no error. -/
def rowsClose (c : Cursor) : Except GoErr Unit × Cursor :=
  (.ok (), { c with closed := true })

/-- One operation a caller can perform on a cursor. -/
inductive RowsOp where
  | next
  | scan
  | close
deriving DecidableEq, Repr

/-- Run a sequence of cursor operations; `Scan` does not move the
cursor, `Next` and `Close` update it. -/
def rowsRun (c : Cursor) : List RowsOp → Cursor
  | [] => c
  | .next :: ops => rowsRun (rowsNext c).2 ops
  | .scan :: ops => rowsRun c ops
  | .close :: ops => rowsRun (rowsClose c).2 ops

theorem rowsRun_exhausted (c : Cursor) (h1 : c.state = .exhausted)
    (h2 : c.rows = []) (ops : List RowsOp) :
    (rowsRun c ops).state = .exhausted ∧ (rowsRun c ops).rows = [] := by
  induction ops generalizing c with
  | nil => exact ⟨h1, h2⟩
  | cons op ops ih =>
    cases op
    · have hnext : (rowsNext c).2 = { c with state := .exhausted } := by
        simp [rowsNext, h2]
      rw [rowsRun, hnext]
      exact ih _ rfl h2
    · rw [rowsRun]
      exact ih c h1 h2
    · rw [rowsRun, rowsClose]
      exact ih _ h1 h2

/-- The arity-mismatch error an Append with the wrong value count
fails with. -/
def errArityMismatch : GoErr := ⟨3, "values count does not match columns"⟩

/-- Modelled from the spec: src declares only the `Appender` interface,
with no implementation; an appender is bound to one table with a fixed
column count and buffers the rows it has accepted. -/
structure AppenderModel where
  colCount : Nat
  accepted : List (List GoValue)
deriving DecidableEq, Repr

/-- Modelled from the spec: a fresh appender bound to a table with `k`
columns has accepted nothing. -/
def appenderOpen (k : Nat) : AppenderModel := ⟨k, []⟩

/-- Modelled from the spec: `Append` validates arity against the bound
table's column count; on a match the row is buffered, on a mismatch the
call fails and nothing is buffered. -/
def appenderAppend (a : AppenderModel) (values : List GoValue) :
    Except GoErr AppenderModel :=
  if values.length = a.colCount then
    .ok { a with accepted := a.accepted ++ [values] }
  else
    .error errArityMismatch

/-- Modelled from the spec: `AppendWithTimestamp` additionally pins an
explicit event time, which fills the table's time column ahead of the
remaining values; arity is validated the same way. -/
def appenderAppendWithTimestamp (a : AppenderModel) (ts : Int)
    (values : List GoValue) : Except GoErr AppenderModel :=
  appenderAppend a (GoValue.timev ts :: values)

/-- Modelled from the spec: `Close` flushes the buffered rows and
returns success-count, fail-count and error; every row the model
accepted succeeds. -/
def appenderClose (a : AppenderModel) : Nat × Nat × Option GoErr :=
  (a.accepted.length, 0, none)

/-- The generic failure of a network exchange that broke down, distinct
from the cancellation sentinel. -/
def errBrokenExchange : GoErr := ⟨4, "i/o error"⟩

/-- The error an operation on a closed connection fails with. -/
def errConnClosed : GoErr := ⟨5, "connection closed"⟩

/-- Modelled from the spec: src declares only the `Conn` interface, with
no implementation; the session state a cancelled query must not corrupt
is whether the connection is still open. -/
structure ConnModel where
  closed : Bool
deriving DecidableEq, Repr

/-- What an in-flight query observes at each suspension point: a
completed network round, or the caller cancelling the context. -/
inductive QueryEvent where
  | netStep
  | cancel
deriving DecidableEq, Repr

/-- Modelled from the spec: `Exec` on an open connection behaves
normally and fails only when the connection is closed. -/
def connExec (c : ConnModel) : Except GoErr Unit :=
  if c.closed then .error errConnClosed else .ok ()

/-- Modelled from the spec: `Query` needs a number of network rounds to
complete; a cancel event arriving while rounds are still pending aborts
the exchange with the `ErrUserCancel` sentinel and leaves the
connection state untouched, while an exchange that breaks down without
completing surfaces the generic I/O error. -/
def connQuery (c : ConnModel) : Nat → List QueryEvent → Except GoErr Unit × ConnModel
  | 0, _ => (.ok (), c)
  | _ + 1, [] => (.error errBrokenExchange, c)
  | _ + 1, .cancel :: _ => (.error ErrUserCancel, c)
  | n + 1, .netStep :: rest => connQuery c n rest

theorem connQuery_cancel (c : ConnModel) (k n : Nat) (rest : List QueryEvent)
    (hk : k < n) :
    connQuery c n (List.replicate k .netStep ++ .cancel :: rest) =
      (.error ErrUserCancel, c) := by
  induction k generalizing n with
  | zero =>
    cases n with
    | zero => exact absurd hk (Nat.not_lt_zero 0)
    | succ m => rfl
  | succ k ih =>
    cases n with
    | zero => exact absurd hk (Nat.not_lt_zero _)
    | succ m =>
      rw [List.replicate_succ, List.cons_append]
      exact ih m (Nat.lt_of_succ_lt_succ hk)

end Spi

namespace Spi

/-- C1: for every Columns sequence and every column whose Type is one
of the twelve supported tags, MakeBuffer places at that column's index
a slot of the mapped storage kind (int16 to 16-bit signed, int32 to
32-bit signed, int64 to 64-bit signed, int8 to 8-bit unsigned, float
to 32-bit float, double to 64-bit float, datetime to timestamp,
ipv4 and ipv6 to IP address, string to text, binary to byte sequence,
bool to boolean), and the mapping is total over the fixed tag set. -/
theorem spec_c1 (cols : Columns) (i : Nat) (c : Column)
    (hc : cols[i]? = some c) :
    ((c.Typ = "int16" → cols.MakeBuffer[i]? = some (some CellKind.i16)) ∧
     (c.Typ = "int32" → cols.MakeBuffer[i]? = some (some CellKind.i32)) ∧
     (c.Typ = "int64" → cols.MakeBuffer[i]? = some (some CellKind.i64)) ∧
     (c.Typ = "int8" → cols.MakeBuffer[i]? = some (some CellKind.byteU8)) ∧
     (c.Typ = "float" → cols.MakeBuffer[i]? = some (some CellKind.f32)) ∧
     (c.Typ = "double" → cols.MakeBuffer[i]? = some (some CellKind.f64)) ∧
     (c.Typ = "datetime" → cols.MakeBuffer[i]? = some (some CellKind.timeTime)) ∧
     (c.Typ = "ipv4" → cols.MakeBuffer[i]? = some (some CellKind.netIP)) ∧
     (c.Typ = "ipv6" → cols.MakeBuffer[i]? = some (some CellKind.netIP)) ∧
     (c.Typ = "string" → cols.MakeBuffer[i]? = some (some CellKind.text)) ∧
     (c.Typ = "binary" → cols.MakeBuffer[i]? = some (some CellKind.bytes)) ∧
     (c.Typ = "bool" → cols.MakeBuffer[i]? = some (some CellKind.boolean))) ∧
    (c.Typ ∈ supportedTags → ∃ k, cols.MakeBuffer[i]? = some (some k)) := by
  have hbuf : cols.MakeBuffer[i]? = some (bufferCellOf c.Typ) := by
    rw [MakeBuffer_getElem?, hc]; rfl
  constructor
  · refine ⟨?_, ?_, ?_, ?_, ?_, ?_, ?_, ?_, ?_, ?_, ?_, ?_⟩ <;>
      (intro h; rw [hbuf, h]; rfl)
  · intro h
    obtain ⟨k, hk⟩ := bufferCellOf_isSome_of_mem h
    exact ⟨k, by rw [hbuf, hk]⟩

/-- Witness for C1 at a concrete one-column sequence of tag int16. -/
theorem spec_c1_witness :
    (Columns.MakeBuffer [⟨"a", "int16", 2, 2⟩])[0]? =
      some (some CellKind.i16) :=
  (spec_c1 [⟨"a", "int16", 2, 2⟩] 0 ⟨"a", "int16", 2, 2⟩ rfl).1.1 rfl

/-- C2: for every Columns sequence, Names(), Types() and the MakeBuffer
result all have length equal to the number of columns. -/
theorem spec_c2 (cols : Columns) :
    cols.Names.length = cols.length ∧
    cols.Types.length = cols.length ∧
    cols.MakeBuffer.length = cols.length := by
  refine ⟨?_, ?_, ?_⟩ <;>
    simp [Columns.Names, Columns.Types, Columns.MakeBuffer]

/-- C3: NamesWithTimeLocation renders a datetime column as
name(zone) and every other column as its bare name, identical to the
corresponding entry of Names(), for every time zone. -/
theorem spec_c3 (cols : Columns) (tz : Location) (i : Nat) (c : Column)
    (hc : cols[i]? = some c) :
    (c.Typ = "datetime" →
      (cols.NamesWithTimeLocation tz)[i]? =
        some (c.Name ++ "(" ++ tz.str ++ ")")) ∧
    (c.Typ ≠ "datetime" →
      (cols.NamesWithTimeLocation tz)[i]? = some c.Name ∧
      (cols.NamesWithTimeLocation tz)[i]? = cols.Names[i]?) := by
  have he : (cols.NamesWithTimeLocation tz)[i]? =
      some (if c.Typ = "datetime" then c.Name ++ "(" ++ tz.str ++ ")"
            else c.Name) := by
    rw [Columns.NamesWithTimeLocation, List.getElem?_map, hc]; rfl
  have hn : cols.Names[i]? = some c.Name := by
    rw [Columns.Names, List.getElem?_map, hc]; rfl
  constructor
  · intro h; rw [he, if_pos h]
  · intro h; rw [he, if_neg h, hn]; exact ⟨rfl, rfl⟩

/-- Witness for C3 on a datetime column and an int32 column in UTC. -/
theorem spec_c3_witness :
    (Columns.NamesWithTimeLocation
        [⟨"t", "datetime", 8, 8⟩, ⟨"v", "int32", 4, 4⟩] ⟨"UTC"⟩)[0]? = some "t(UTC)" ∧
    (Columns.NamesWithTimeLocation
        [⟨"t", "datetime", 8, 8⟩, ⟨"v", "int32", 4, 4⟩] ⟨"UTC"⟩)[1]? = some "v" :=
  ⟨(spec_c3 [⟨"t", "datetime", 8, 8⟩, ⟨"v", "int32", 4, 4⟩] ⟨"UTC"⟩ 0
      ⟨"t", "datetime", 8, 8⟩ rfl).1 rfl,
   ((spec_c3 [⟨"t", "datetime", 8, 8⟩, ⟨"v", "int32", 4, 4⟩] ⟨"UTC"⟩ 1
      ⟨"v", "int32", 4, 4⟩ rfl).2 (by decide)).1⟩

/-- C4: a column whose tag is outside the supported set gets a nil slot,
the call does not fail, the buffer still has full length, and every
supported column in the same sequence is allocated normally. -/
theorem spec_c4 (cols : Columns) (i : Nat) (c : Column)
    (hc : cols[i]? = some c) (hu : c.Typ ∉ supportedTags) :
    cols.MakeBuffer[i]? = some none ∧
    cols.MakeBuffer.length = cols.length ∧
    (∀ (j : Nat) (d : Column), cols[j]? = some d → d.Typ ∈ supportedTags →
      ∃ k, cols.MakeBuffer[j]? = some (some k)) := by
  refine ⟨?_, by simp [Columns.MakeBuffer], ?_⟩
  · rw [MakeBuffer_getElem?, hc, Option.map_some',
      bufferCellOf_eq_none_of_not_mem hu]
  · intro j d hd hmem
    obtain ⟨k, hk⟩ := bufferCellOf_isSome_of_mem hmem
    exact ⟨k, by rw [MakeBuffer_getElem?, hd, Option.map_some', hk]⟩

/-- Witness for C4 on a sequence with an unknown tag and an int32 tag. -/
theorem spec_c4_witness :
    (Columns.MakeBuffer [⟨"x", "json", 0, 0⟩, ⟨"y", "int32", 4, 4⟩])[0]? =
      some none :=
  (spec_c4 [⟨"x", "json", 0, 0⟩, ⟨"y", "int32", 4, 4⟩] 0
    ⟨"x", "json", 0, 0⟩ rfl (by decide)).1

/-- C9: tag matching in MakeBuffer is exact case-sensitive string
equality: a Type differing from a supported tag only in letter case or
surrounding characters (INT32, Datetime, int32 with a trailing space)
gets a nil slot like any unknown tag, and a non-nil slot arises only
from exact membership in the supported tag set. -/
theorem spec_c9 (cols : Columns) (i : Nat) (c : Column)
    (hc : cols[i]? = some c)
    (hcase : c.Typ = "INT32" ∨ c.Typ = "Datetime" ∨ c.Typ = "int32 ") :
    cols.MakeBuffer[i]? = some none ∧
    (∀ t, bufferCellOf t ≠ none → t ∈ supportedTags) := by
  constructor
  · have hu : c.Typ ∉ supportedTags := by
      rcases hcase with h | h | h <;> rw [h] <;> decide
    rw [MakeBuffer_getElem?, hc, Option.map_some',
      bufferCellOf_eq_none_of_not_mem hu]
  · intro t ht
    by_contra hm
    exact ht (bufferCellOf_eq_none_of_not_mem hm)

/-- Witness for C9 on an upper-cased tag. -/
theorem spec_c9_witness :
    (Columns.MakeBuffer [⟨"n", "INT32", 4, 4⟩])[0]? = some none :=
  (spec_c9 [⟨"n", "INT32", 4, 4⟩] 0 ⟨"n", "INT32", 4, 4⟩ rfl (Or.inl rfl)).1

/-- C10: the slot MakeBuffer allocates at an index depends only on that
column's Type: equal Type fields give equal slots across any two
sequences and indices, whatever the Name, Size and Length fields and
the surrounding columns are. -/
theorem spec_c10 (cs ds : Columns) (i j : Nat) (cc dd : Column)
    (hci : cs[i]? = some cc) (hdj : ds[j]? = some dd)
    (ht : cc.Typ = dd.Typ) :
    cs.MakeBuffer[i]? = ds.MakeBuffer[j]? := by
  rw [MakeBuffer_getElem?, MakeBuffer_getElem?, hci, hdj,
    Option.map_some', Option.map_some', ht]

/-- Witness for C10: two int32 columns with different names, sizes,
lengths and neighbours get the same slot. -/
theorem spec_c10_witness :
    (Columns.MakeBuffer [⟨"a", "int32", 1, 1⟩])[0]? =
    (Columns.MakeBuffer [⟨"zzz", "int32", 99, 7⟩, ⟨"w", "bool", 0, 0⟩])[0]? :=
  spec_c10 [⟨"a", "int32", 1, 1⟩] [⟨"zzz", "int32", 99, 7⟩, ⟨"w", "bool", 0, 0⟩]
    0 0 ⟨"a", "int32", 1, 1⟩ ⟨"zzz", "int32", 99, 7⟩ rfl rfl rfl

/-- C7: the user-cancel sentinel and the not-implemented sentinel are
two distinct error values, identity-comparable: each compares equal to
itself on every access, the two never compare equal to each other, and
the comparison never inspects the message text. -/
theorem spec_c7 :
    goErrEq ErrUserCancel ErrUserCancel = true ∧
    goErrEq ErrNotImplemented ErrNotImplemented = true ∧
    goErrEq ErrUserCancel ErrNotImplemented = false ∧
    goErrEq ErrNotImplemented ErrUserCancel = false ∧
    (∀ m m2 : String,
      goErrEq ⟨ErrUserCancel.allocId, m⟩ ⟨ErrNotImplemented.allocId, m2⟩ = false) :=
  ⟨rfl, rfl, rfl, rfl, fun _ _ => rfl⟩

/-- C5: Scan before any Next fails with a usage error; once a Next has
returned false no subsequent Scan succeeds; Scan succeeds only in the
Positioned state, which is reached exactly by a Next that returned
true; and Close reports no error from any state, any number of times. -/
theorem spec_c5 :
    (∀ data, rowsScan (rowsOpen data) = .error errScanUsage) ∧
    (∀ c c2, rowsNext c = (false, c2) →
      ∀ ops, rowsScan (rowsRun c2 ops) = .error errScanUsage) ∧
    (∀ c, (∃ v, rowsScan c = .ok v) → c.state = .positioned) ∧
    (∀ c b c2, rowsNext c = (b, c2) → (c2.state = .positioned ↔ b = true)) ∧
    (∀ c, (rowsClose c).1 = .ok () ∧ (rowsClose (rowsClose c).2).1 = .ok ()) := by
  refine ⟨fun data => rfl, ?_, ?_, ?_, fun c => ⟨rfl, rfl⟩⟩
  · intro c c2 h ops
    have h2 : c2.state = CursorState.exhausted ∧ c2.rows = [] := by
      cases hr : c.rows with
      | nil =>
        simp only [rowsNext, hr] at h
        obtain ⟨-, hc2⟩ := Prod.mk.injEq .. ▸ h
        subst hc2
        exact ⟨rfl, rfl⟩
      | cons r rest =>
        simp [rowsNext, hr] at h
    have h3 := rowsRun_exhausted c2 h2.1 h2.2 ops
    simp [rowsScan, h3.1]
  · rintro c ⟨v, hv⟩
    simp only [rowsScan] at hv
    split at hv
    · assumption
    · simp at hv
  · intro c b c2 h
    cases hr : c.rows with
    | nil =>
      simp only [rowsNext, hr] at h
      obtain ⟨hb, hc2⟩ := Prod.mk.injEq .. ▸ h
      subst hb; subst hc2
      simp
    | cons r rest =>
      simp only [rowsNext, hr] at h
      obtain ⟨hb, hc2⟩ := Prod.mk.injEq .. ▸ h
      subst hb; subst hc2
      simp

/-- Witness for C5: a fresh cursor rejects Scan, and after Next returns
false on an empty result set every later Scan fails too. -/
theorem spec_c5_witness :
    rowsScan (rowsOpen [[GoValue.intv 1]]) = .error errScanUsage ∧
    rowsScan (rowsRun ⟨[], CursorState.exhausted, [], false⟩
      [RowsOp.scan, RowsOp.next, RowsOp.close, RowsOp.scan]) =
      .error errScanUsage :=
  ⟨spec_c5.1 [[GoValue.intv 1]],
   spec_c5.2.1 (rowsOpen []) ⟨[], CursorState.exhausted, [], false⟩ rfl
     [RowsOp.scan, RowsOp.next, RowsOp.close, RowsOp.scan]⟩

/-- C6: on an appender bound to a table with k columns, an Append or
AppendWithTimestamp with the wrong number of values fails that call
only: the previously accepted row is unaffected and Close reports
success count 1, fail count 0 and no error. -/
theorem spec_c6 (k : Nat) (good bad bad2 : List GoValue) (ts : Int)
    (hg : good.length = k) (hb : bad.length ≠ k)
    (hb2 : bad2.length + 1 ≠ k) :
    ∃ a1, appenderAppend (appenderOpen k) good = .ok a1 ∧
      appenderAppend a1 bad = .error errArityMismatch ∧
      appenderAppendWithTimestamp a1 ts bad2 = .error errArityMismatch ∧
      appenderClose a1 = (1, 0, none) := by
  refine ⟨⟨k, [good]⟩, ?_, ?_, ?_, rfl⟩
  · simp [appenderAppend, appenderOpen, hg]
  · simp [appenderAppend, hb]
  · simp [appenderAppendWithTimestamp, appenderAppend, hb2]

/-- Witness for C6: a 2-column table accepts (1, a), rejects a
1-value Append and a timestamped append with no further value, and
Close reports (1, 0, no error). -/
theorem spec_c6_witness :
    ∃ a1,
      appenderAppend (appenderOpen 2) [GoValue.intv 1, GoValue.strv "a"] =
        .ok a1 ∧
      appenderAppend a1 [GoValue.intv 2] = .error errArityMismatch ∧
      appenderAppendWithTimestamp a1 0 [] = .error errArityMismatch ∧
      appenderClose a1 = (1, 0, none) :=
  spec_c6 2 [GoValue.intv 1, GoValue.strv "a"] [GoValue.intv 2] [] 0
    rfl (by decide) (by decide)

/-- C8: cancelling the context of an in-flight Query yields the
distinguished cancellation sentinel, which is not the generic I/O
error, and the originating connection is untouched, so a subsequent
Exec on it behaves normally. -/
theorem spec_c8 (c : ConnModel) (n k : Nat) (rest : List QueryEvent)
    (hopen : c.closed = false) (hk : k < n) :
    connQuery c n (List.replicate k .netStep ++ .cancel :: rest) =
      (.error ErrUserCancel, c) ∧
    ErrUserCancel ≠ errBrokenExchange ∧
    connExec (connQuery c n (List.replicate k .netStep ++ .cancel :: rest)).2 =
      .ok () := by
  have h := connQuery_cancel c k n rest hk
  refine ⟨h, by decide, ?_⟩
  rw [h]
  simp [connExec, hopen]

/-- Witness for C8: a query needing two rounds, cancelled after one, on
an open connection. -/
theorem spec_c8_witness :
    connQuery ⟨false⟩ 2
        (List.replicate 1 QueryEvent.netStep ++ QueryEvent.cancel :: []) =
      (.error ErrUserCancel, ⟨false⟩) ∧
    ErrUserCancel ≠ errBrokenExchange ∧
    connExec (connQuery ⟨false⟩ 2
        (List.replicate 1 QueryEvent.netStep ++ QueryEvent.cancel :: [])).2 =
      .ok () :=
  spec_c8 ⟨false⟩ 2 1 [] rfl (by decide)

end Spi
